import Mathlib

/-!
Shallow embedding of the Soccer2D analysis helpers (`helpers.py` together with
the geometric primitives of `geom_2d.py`).

Real-valued Euclidean distances in the source are computed with `math.sqrt`;
every use of a distance in the analysed code is a comparison against another
distance or a nonnegative constant, and squaring is strictly monotone on
nonnegative reals, so distances are modelled throughout by their squares.
Coordinates are integers counted in tenths of a field unit (the coarsest grid
on which every constant of the source is exact), so squared distances are in
hundredths: the influence radius 0.7 becomes 7 tenths with square 49, and the
sentinel distance 1000 becomes 10000 tenths with square 100000000.  Python
integers are `ℤ`, the per-cycle pandas table is a `List Row`, and exceptions
become `Except` results.
-/

deriving instance DecidableEq for Except

namespace Soccer

/-- Point of the pitch (`geom_2d.Point`), coordinates in integer tenths of a
field unit; the Python constructor default `Point()` is the origin. -/
structure Point where
  x : ℤ := 0
  y : ℤ := 0
  deriving DecidableEq

/-- Squared Euclidean distance between two points (`geom_2d.distance`, modelled
by its square, in hundredths of a squared unit). -/
def dist_sq (p q : Point) : ℤ :=
  (q.x - p.x) * (q.x - p.x) + (q.y - p.y) * (q.y - p.y)

/-- Python `int()` truncation toward zero of a coordinate given in tenths,
producing whole units: `truncUnits 35 = 3`, `truncUnits (-35) = -3`. -/
def truncUnits (z : ℤ) : ℤ :=
  z.sign * (z.natAbs / 10 : ℕ)

/-- Circle of `geom_2d.Circle`, carrying the squared radius. -/
structure Circle where
  radius_sq : ℤ
  center : Point

/-- Membership test `geom_2d.Circle.is_inside`: distance from the center is at
most the radius (inclusive), stated on squares. -/
def Circle.is_inside (c : Circle) (p : Point) : Bool :=
  decide (dist_sq c.center p ≤ c.radius_sq)

/-- One row of the per-cycle table.  `lx i / ly i` (resp. `rx / ry`) are the
coordinates of the left (resp. right) player at list index `i` of the
`players` column lists, `0 ≤ i ≤ 10`, so list index `i` is shirt number
`i + 1`.  `kickL p / kickR p` are the `player_{l|r}{p}_counting_kick` columns
for shirt number `1 ≤ p ≤ 11`, and `catchL1 / catchR1` the goalkeeper catch
counters `player_{l|r}1_counting_catch`. -/
structure Row where
  playmode : String := "play_on"
  team_name_l : String := ""
  team_name_r : String := ""
  ball_x : ℤ := 0
  ball_y : ℤ := 0
  lx : ℕ → ℤ := fun _ => 0
  ly : ℕ → ℤ := fun _ => 0
  rx : ℕ → ℤ := fun _ => 0
  ry : ℕ → ℤ := fun _ => 0
  kickL : ℕ → ℤ := fun _ => 0
  kickR : ℕ → ℤ := fun _ => 0
  catchL1 : ℤ := 0
  catchR1 : ℤ := 0

instance : Inhabited Row := ⟨{}⟩

/-- Row lookup by cycle index (total, with a default row: the analysed code
only performs these lookups at valid indices, except where an exception is
modelled explicitly). -/
def rowAt (tbl : List Row) (i : ℕ) : Row :=
  tbl.getD i {}

/-- Play-mode column at a cycle. -/
def pmAt (tbl : List Row) (i : ℕ) : String :=
  (rowAt tbl i).playmode

/-- Ball position at a cycle. -/
def ballAt (tbl : List Row) (i : ℕ) : Point :=
  ⟨(rowAt tbl i).ball_x, (rowAt tbl i).ball_y⟩

/-- Position of the left player at list index `i` (shirt `i + 1`) at cycle `c`. -/
def leftPt (tbl : List Row) (c i : ℕ) : Point :=
  ⟨(rowAt tbl c).lx i, (rowAt tbl c).ly i⟩

/-- Position of the right player at list index `i` (shirt `i + 1`) at cycle `c`. -/
def rightPt (tbl : List Row) (c i : ℕ) : Point :=
  ⟨(rowAt tbl c).rx i, (rowAt tbl c).ry i⟩

/-! ### possession_at (helpers.py lines 23-83) -/

/-- Squared distance of the left player at list index `i` to the ball. -/
def dL (tbl : List Row) (c i : ℕ) : ℤ :=
  dist_sq (leftPt tbl c i) (ballAt tbl c)

/-- Squared distance of the right player at list index `i` to the ball. -/
def dR (tbl : List Row) (c i : ℕ) : ℤ :=
  dist_sq (rightPt tbl c i) (ballAt tbl c)

/-- Body of one iteration of the `possession_at` player loop: `st` is the pair
(closest squared distance so far, possession side), `dl / dr` the squared
distances of the left and right player of this index to the ball.  The left
player is examined first; each comparison is strict (`<`). -/
def possStep (st : ℤ × String) (dl dr : ℤ) : ℤ × String :=
  let st1 := if dl < st.1 then (dl, "left") else st
  if dr < st1.1 then (dr, "right") else st1

/-- The `possession_at` loop from list index `i` for `fuel` iterations. -/
def possAux (tbl : List Row) (c : ℕ) : ℕ → ℕ → ℤ × String → ℤ × String
  | _, 0, st => st
  | i, fuel + 1, st =>
      possAux tbl c (i + 1) fuel (possStep st (dL tbl c i) (dR tbl c i))

/-- `helpers.possession_at`: scans all 11 list indices per side with initial
threshold the sentinel squared distance 100000000 (the square of 1000 units =
10000 tenths) and the empty string as initial side. -/
def possession_at (tbl : List Row) (c : ℕ) : String :=
  (possAux tbl c 0 11 (100000000, "")).2

/-! ### define_player_possession (helpers.py lines 85-148) -/

/-- Membership in the `ball_zone` influence circle of radius 0.7 built by
`define_player_possession` around the ball of cycle `c`. -/
def inZone (tbl : List Row) (c : ℕ) (p : Point) : Bool :=
  Circle.is_inside ⟨49, ballAt tbl c⟩ p

/-- The `define_player_possession` loop (with `player_who_possesses = True`).
`rpos` is the Python variable `player_right_position`, which at iteration `i`
still holds the value assigned at iteration `i - 1` (the origin before any
assignment) when the ambiguity test is evaluated, because the right position
of the current index is only assigned after the left-player tests. -/
def dppAux (tbl : List Row) (c : ℕ) : Point → ℕ → ℕ → Option String × ℤ
  | _, _, 0 => (none, -1)
  | rpos, i, fuel + 1 =>
      if inZone tbl c (leftPt tbl c i) && inZone tbl c rpos then (none, -1)
      else if inZone tbl c (leftPt tbl c i) then (some "left", (i : ℤ) + 2)
      else if inZone tbl c (rightPt tbl c i) then (some "right", (i : ℤ) + 2)
      else dppAux tbl c (rightPt tbl c i) (i + 1) fuel

/-- `helpers.define_player_possession` with `player_who_possesses = True`:
loops over list indices `1` to `10` (shirt numbers 2 to 11), the carried right
position starting at the origin (`Point()`), and returns `(side, i + 2)` for
the first index whose player is inside the 0.7-radius influence zone of the
ball, or `(none, -1)`. -/
def define_player_possession (tbl : List Row) (c : ℕ) : Option String × ℤ :=
  dppAux tbl c {} 1 10

/-! ### kick (helpers.py lines 150-174) -/

/-- Kick-counter column `player_{team}{p}_counting_kick` at cycle `c`. -/
def kickCnt (tbl : List Row) (c : ℕ) (team : String) (p : ℕ) : ℤ :=
  if team = "l" then (rowAt tbl c).kickL p else (rowAt tbl c).kickR p

/-- The `kick` player loop from shirt number `p` for `fuel` iterations; the
`cycle != 0` guard of the source sits inside the loop body. -/
def kickAux (tbl : List Row) (c : ℕ) (team : String) : ℕ → ℕ → Bool × ℤ
  | _, 0 => (false, -1)
  | p, fuel + 1 =>
      if c ≠ 0 ∧ kickCnt tbl (c - 1) team p < kickCnt tbl c team p
      then (true, (p : ℤ))
      else kickAux tbl c team (p + 1) fuel

/-- `helpers.kick` with `player_who_kicked = True`: scans shirt numbers 1 to 11
and reports the first whose kick counter strictly increased versus cycle
`c - 1`, or `(false, -1)`. -/
def kick (tbl : List Row) (c : ℕ) (team : String) : Bool × ℤ :=
  kickAux tbl c team 1 11

/-! ### analyze_fouls_charge (helpers.py lines 201-235) -/

/-- Ball position at a cycle with both coordinates truncated by Python
`int()` to whole units (re-expressed in tenths), as appended by
`analyze_fouls_charge`. -/
def ballPtInt (tbl : List Row) (i : ℕ) : Point :=
  ⟨10 * truncUnits (rowAt tbl i).ball_x, 10 * truncUnits (rowAt tbl i).ball_y⟩

/-- The `analyze_fouls_charge` loop from cycle `i` for `fuel` remaining
cycles with accumulators `L` and `R`.  The source reads
`dataframe.loc[i - 1, 'playmode']`; with a pandas range index, label `-1`
does not exist, so at `i = 0` that read raises `KeyError` as soon as the
current play-mode equals one of the two foul labels (the conjunction is
evaluated left to right and short-circuits). -/
def foulsAux (tbl : List Row) : ℕ → ℕ → List Point → List Point →
    Except String (List Point × List Point)
  | _, 0, L, R => .ok (L, R)
  | i, fuel + 1, L, R =>
      if pmAt tbl i = "foul_charge_l" then
        if i = 0 then .error "KeyError"
        else if pmAt tbl (i - 1) ≠ "foul_charge_l" then
          foulsAux tbl (i + 1) fuel (L ++ [ballPtInt tbl i]) R
        else foulsAux tbl (i + 1) fuel L R
      else if pmAt tbl i = "foul_charge_r" then
        if i = 0 then .error "KeyError"
        else if pmAt tbl (i - 1) ≠ "foul_charge_r" then
          foulsAux tbl (i + 1) fuel L (R ++ [ballPtInt tbl i])
        else foulsAux tbl (i + 1) fuel L R
      else foulsAux tbl (i + 1) fuel L R

/-- `helpers.analyze_fouls_charge`: one forward scan over every cycle. -/
def analyze_fouls_charge (tbl : List Row) :
    Except String (List Point × List Point) :=
  foulsAux tbl 0 tbl.length [] []

/-! ### goals (helpers.py lines 238-276) -/

/-- Play-mode of the previous row as read by `goals`: the source uses
`dataframe.iloc[index - 1]`, and positional index `-1` wraps around to the
last row of the table. -/
def pmPrevWrap (tbl : List Row) (i : ℕ) : String :=
  if i = 0 then pmAt tbl (tbl.length - 1) else pmAt tbl (i - 1)

/-- The `goals` loop over the play-mode-filtered row indices, carrying the
three accumulators (all goal moments, left-team goals, right-team goals). -/
def goalsAux (tbl : List Row) : List ℕ → List ℕ × List ℕ × List ℕ →
    List ℕ × List ℕ × List ℕ
  | [], acc => acc
  | i :: rest, (gm, lg, rg) =>
      if pmPrevWrap tbl i ≠ pmAt tbl i then
        if pmAt tbl i = "goal_l" then
          goalsAux tbl rest (gm ++ [i], lg ++ [i], rg)
        else
          goalsAux tbl rest (gm ++ [i], lg, rg ++ [i])
      else goalsAux tbl rest (gm, lg, rg)

/-- `helpers.goals`: filters the table to the rows whose play-mode is
`goal_l` or `goal_r`, edge-triggers against the previous row (positional
wraparound at row 0), and returns the list selected by `team`. -/
def goals (tbl : List Row) (team : Option String) : List ℕ :=
  let filtered := (List.range tbl.length).filter
    (fun i => pmAt tbl i = "goal_l" ∨ pmAt tbl i = "goal_r")
  let acc := goalsAux tbl filtered ([], [], [])
  if team = some "left" then acc.2.1
  else if team = some "right" then acc.2.2
  else acc.1

/-! ### analyze_goalkeeper (helpers.py lines 278-379) -/

/-- Result record of `analyze_goalkeeper`: final catch counter, adversary
goal quantity, squared goalie-to-ball distances, ball positions and goalie
positions at each adversary goal. -/
structure GoalieReport where
  catches : ℤ
  adversary_goal_quantity : ℕ
  distances : List ℤ
  ball_positions : List Point
  goalie_positions : List Point
  deriving DecidableEq

/-- `helpers.analyze_goalkeeper`: an unknown `team` falls into the `else`
branch of the name comparison and is treated exactly like the right team
(enemy side `left`); no error is raised for it.  The only failing access is
`dataframe.iloc[0]` on an empty table.  The goalkeeper examined in the loop
is the one of the `enemy_team` side, as in the source. -/
def analyze_goalkeeper : List Row → String → Except String GoalieReport
  | [], _ => .error "IndexError"
  | r0 :: rest, team =>
      let tbl := r0 :: rest
      let enemy : String := if r0.team_name_l = team then "right" else "left"
      let catches : ℤ :=
        if r0.team_name_l = team then (rowAt tbl (tbl.length - 1)).catchL1
        else (rowAt tbl (tbl.length - 1)).catchR1
      let enemy_goals := goals tbl (some enemy)
      let ball_positions := enemy_goals.map (fun g => ballAt tbl g)
      let goalie_positions := enemy_goals.map (fun g =>
        if enemy = "left" then leftPt tbl g 0 else rightPt tbl g 0)
      let distances := enemy_goals.map (fun g =>
        dist_sq (ballAt tbl g)
          (if enemy = "left" then leftPt tbl g 0 else rightPt tbl g 0))
      .ok ⟨catches, max 1 enemy_goals.length, distances,
        ball_positions, goalie_positions⟩

/-! ### analyse_passes (helpers.py lines 417-507) -/

/-- Mutable locals of the `analyse_passes` scan: the six counters, the two
in-flight flags, and the single shared variable `player_who_kicked` (written
by both the right-side and the left-side kick calls; before the first cycle
it is unassigned in the source and is never read before being assigned,
since both flags start false — the initial value 0 here is immaterial). -/
structure PassState where
  correct_l : ℤ := 0
  wrong_l : ℤ := 0
  intercepted_l : ℤ := 0
  correct_r : ℤ := 0
  wrong_r : ℤ := 0
  intercepted_r : ℤ := 0
  pass_r : Bool := false
  pass_l : Bool := false
  pwk : ℤ := 0
  deriving DecidableEq

/-- The 5-cycle lookahead `for l in range(5)` over play-modes starting at the
current cycle `j`, aborted by the `except: pass` handler as soon as an index
runs past the end of the table; returns whether a play-mode in `modes` was
found before the scan ended. -/
def lookahead5Aux (tbl : List Row) (modes : List String) : ℕ → ℕ → Bool
  | _, 0 => false
  | j, fuel + 1 =>
      match tbl[j]? with
      | none => false
      | some r => if r.playmode ∈ modes then true
                  else lookahead5Aux tbl modes (j + 1) fuel

/-- Lookahead of `analyse_passes` from cycle `i`: offsets 0 to 4. -/
def lookahead5 (tbl : List Row) (i : ℕ) (modes : List String) : Bool :=
  lookahead5Aux tbl modes i 5

/-- Right-side block of the `analyse_passes` loop body (helpers.py lines
434-466).  Returns the updated state and whether the source executed
`continue` (which skips the left-side block for this cycle). -/
def rightBlock (tbl : List Row) (i : ℕ) (s : PassState) : PassState × Bool :=
  if !s.pass_r then
    let k := kick tbl i "r"
    ({ s with pass_r := k.1, pwk := k.2 }, false)
  else
    let s := { s with pass_l := false }
    if pmAt tbl i = "kick_in_l" then
      ({ s with pass_r := false, wrong_r := s.wrong_r + 1 }, true)
    else
      let pr := define_player_possession tbl i
      let s :=
        if pr.1 = some "right" then
          { s with pass_r := false,
                   correct_r := s.correct_r + (if s.pwk ≠ pr.2 then 1 else 0) }
        else s
      let s :=
        if pr.1 = some "left" then
          { s with pass_r := false,
                   intercepted_l := s.intercepted_l + 1 -
                     (if lookahead5 tbl i ["kick_off_l", "foul_charge_l"]
                      then 1 else 0) }
        else s
      (s, false)

/-- Left-side block of the `analyse_passes` loop body (helpers.py lines
468-500).  Its `continue` is the last statement of the loop body, so it has
no control effect and the block simply returns the updated state. -/
def leftBlock (tbl : List Row) (i : ℕ) (s : PassState) : PassState :=
  if !s.pass_l then
    let k := kick tbl i "l"
    { s with pass_l := k.1, pwk := k.2 }
  else
    let s := { s with pass_r := false }
    if pmAt tbl i = "kick_in_r" then
      { s with pass_l := false, wrong_l := s.wrong_l + 1 }
    else
      let pr := define_player_possession tbl i
      let s :=
        if pr.1 = some "left" then
          { s with pass_l := false,
                   correct_l := s.correct_l + (if s.pwk ≠ pr.2 then 1 else 0) }
        else s
      let s :=
        if pr.1 = some "right" then
          { s with pass_l := false,
                   intercepted_r := s.intercepted_r + 1 -
                     (if lookahead5 tbl i ["kick_off_r", "foul_charge_r"]
                      then 1 else 0) }
        else s
      s

/-- One full cycle of the `analyse_passes` scan: the right-side block, then —
unless that block executed `continue` — the left-side block. -/
def passStep (tbl : List Row) (i : ℕ) (s : PassState) : PassState :=
  if (rightBlock tbl i s).2 then (rightBlock tbl i s).1
  else leftBlock tbl i (rightBlock tbl i s).1

/-- State of the `analyse_passes` scan after the first `n` cycles. -/
def stateAfter (tbl : List Row) (n : ℕ) : PassState :=
  (List.range n).foldl (fun s i => passStep tbl i s) {}

/-- `helpers.analyse_passes`: full scan followed by the team-name dispatch,
which raises `ValueError` when `team` matches neither recorded name (read
from row 0; an empty table fails on that very read). -/
def analyse_passes : List Row → String → Except String (ℤ × ℤ × ℤ)
  | [], _ => .error "KeyError"
  | r0 :: rest, team =>
      let s := stateAfter (r0 :: rest) (r0 :: rest).length
      if team = r0.team_name_l then
        .ok (s.correct_l, s.wrong_l, s.intercepted_l)
      else if team = r0.team_name_r then
        .ok (s.correct_r, s.wrong_r, s.intercepted_r)
      else .error "ValueError: Cannot find team name."

/-! ### Helper lemmas about kick -/

/-- Condition under which the `kick` loop fires for shirt number `p` at a
cycle `c > 0`: the kick counter strictly increased versus cycle `c - 1`. -/
def kickIncr (tbl : List Row) (c : ℕ) (team : String) (p : ℕ) : Prop :=
  kickCnt tbl (c - 1) team p < kickCnt tbl c team p

instance (tbl : List Row) (c : ℕ) (team : String) (p : ℕ) :
    Decidable (kickIncr tbl c team p) := by
  unfold kickIncr; infer_instance

lemma kickAux_eq_false (tbl : List Row) (c : ℕ) (team : String) :
    ∀ fuel p, (∀ q, p ≤ q → q < p + fuel → ¬ (c ≠ 0 ∧ kickIncr tbl c team q)) →
      kickAux tbl c team p fuel = (false, -1) := by
  intro fuel
  induction fuel with
  | zero => intro p _; rfl
  | succ f ih =>
      intro p h
      simp only [kickIncr] at h
      rw [kickAux]
      rw [if_neg]
      · exact ih (p + 1) (fun q hq1 hq2 => h q (by omega) (by omega))
      · exact h p (by omega) (by omega)

lemma kickAux_eq_true (tbl : List Row) (c : ℕ) (team : String) :
    ∀ fuel p j, p ≤ j → j < p + fuel → (c ≠ 0 ∧ kickIncr tbl c team j) →
      (∀ q, p ≤ q → q < j → ¬ (c ≠ 0 ∧ kickIncr tbl c team q)) →
      kickAux tbl c team p fuel = (true, (j : ℤ)) := by
  intro fuel
  induction fuel with
  | zero => intro p j h1 h2; omega
  | succ f ih =>
      intro p j h1 h2 hj hmin
      simp only [kickIncr] at hj hmin
      rw [kickAux]
      by_cases hp : j = p
      · subst hp
        rw [if_pos hj]
      · rw [if_neg (hmin p (by omega) (by omega))]
        exact ih (p + 1) j (by omega) (by omega) hj
          (fun q hq1 hq2 => hmin q (by omega) hq2)

/-! ### Helper lemmas about goals -/

lemma goalsAux_fst (tbl : List Row) :
    ∀ l gm lg rg, (goalsAux tbl l (gm, lg, rg)).1 =
      gm ++ l.filter (fun i => decide (pmPrevWrap tbl i ≠ pmAt tbl i)) := by
  intro l
  induction l with
  | nil => intro gm lg rg; simp [goalsAux]
  | cons i rest ih =>
      intro gm lg rg
      by_cases h : pmPrevWrap tbl i ≠ pmAt tbl i
      · by_cases hg : pmAt tbl i = "goal_l"
        · rw [goalsAux, if_pos h, if_pos hg, ih]
          simp [List.filter_cons, h]
        · rw [goalsAux, if_pos h, if_neg hg, ih]
          simp [List.filter_cons, h]
      · rw [goalsAux, if_neg h, ih]
        simp only [ne_eq, not_not] at h
        simp [List.filter_cons, h]

/-- Membership characterisation of `goals` with no team filter: exactly the
cycles with a goal play-mode differing from the (wraparound) previous row. -/
lemma goals_none_mem (tbl : List Row) (i : ℕ) :
    i ∈ goals tbl none ↔
      i < tbl.length ∧ (pmAt tbl i = "goal_l" ∨ pmAt tbl i = "goal_r") ∧
        pmPrevWrap tbl i ≠ pmAt tbl i := by
  unfold goals
  rw [if_neg (by simp : ¬ (none : Option String) = some "left"),
    if_neg (by simp : ¬ (none : Option String) = some "right"), goalsAux_fst]
  simp only [List.nil_append, List.mem_filter, List.mem_range, decide_eq_true_eq]
  tauto

/-! ### Helper lemmas about analyze_fouls_charge -/

/-- Edge-trigger predicate for a left foul charge, following the words of the
specification: the play-mode at `i` is the left foul label and the play-mode
at `i - 1` is not (at `i = 0` this is vacuously false, since `0 - 1 = 0` on
`ℕ` makes both sides equal). -/
def foulEdgeL (tbl : List Row) (i : ℕ) : Bool :=
  decide (pmAt tbl i = "foul_charge_l" ∧ pmAt tbl (i - 1) ≠ "foul_charge_l")

/-- Edge-trigger predicate for a right foul charge, mirror of `foulEdgeL`. -/
def foulEdgeR (tbl : List Row) (i : ℕ) : Bool :=
  decide (pmAt tbl i = "foul_charge_r" ∧ pmAt tbl (i - 1) ≠ "foul_charge_r")

/-- Modelled from the spec: the edge-triggered per-side foul locations
(`foulsBySide`), as truncated ball positions of the first cycle of each
foul-charge span. -/
def foulsSpec (tbl : List Row) : List Point × List Point :=
  (((List.range tbl.length).filter (foulEdgeL tbl)).map (ballPtInt tbl),
   ((List.range tbl.length).filter (foulEdgeR tbl)).map (ballPtInt tbl))

lemma foulsAux_ok (tbl : List Row) :
    ∀ fuel i L R, 1 ≤ i →
      foulsAux tbl i fuel L R = .ok
        (L ++ ((List.range' i fuel).filter (foulEdgeL tbl)).map (ballPtInt tbl),
         R ++ ((List.range' i fuel).filter (foulEdgeR tbl)).map (ballPtInt tbl)) := by
  intro fuel
  induction fuel with
  | zero => intro i L R h; simp [foulsAux, List.range']
  | succ f ih =>
      intro i L R h
      rw [List.range'_succ]
      by_cases h1 : pmAt tbl i = "foul_charge_l"
      · by_cases h2 : pmAt tbl (i - 1) ≠ "foul_charge_l"
        · rw [foulsAux, if_pos h1, if_neg (by omega : ¬ i = 0), if_pos h2,
            ih (i + 1) _ _ (by omega)]
          simp [List.filter_cons, foulEdgeL, foulEdgeR, h1, h2]
        · rw [foulsAux, if_pos h1, if_neg (by omega : ¬ i = 0), if_neg h2,
            ih (i + 1) _ _ (by omega)]
          simp only [ne_eq, not_not] at h2
          simp [List.filter_cons, foulEdgeL, foulEdgeR, h1, h2]
      · by_cases h3 : pmAt tbl i = "foul_charge_r"
        · by_cases h2 : pmAt tbl (i - 1) ≠ "foul_charge_r"
          · rw [foulsAux, if_neg h1, if_pos h3, if_neg (by omega : ¬ i = 0),
              if_pos h2, ih (i + 1) _ _ (by omega)]
            simp [List.filter_cons, foulEdgeL, foulEdgeR, h1, h2, h3]
          · rw [foulsAux, if_neg h1, if_pos h3, if_neg (by omega : ¬ i = 0),
              if_neg h2, ih (i + 1) _ _ (by omega)]
            simp only [ne_eq, not_not] at h2
            simp [List.filter_cons, foulEdgeL, foulEdgeR, h1, h2, h3]
        · rw [foulsAux, if_neg h1, if_neg h3, ih (i + 1) _ _ (by omega)]
          simp [List.filter_cons, foulEdgeL, foulEdgeR, h1, h3]

/-- With a non-foul play-mode at cycle 0 the scan never touches the failing
`loc[-1]` read, and `analyze_fouls_charge` returns exactly the edge-triggered
locations of `foulsSpec`. -/
lemma analyze_fouls_charge_eq (tbl : List Row)
    (h1 : pmAt tbl 0 ≠ "foul_charge_l") (h2 : pmAt tbl 0 ≠ "foul_charge_r") :
    analyze_fouls_charge tbl = .ok (foulsSpec tbl) := by
  unfold analyze_fouls_charge foulsSpec
  cases hl : tbl.length with
  | zero => simp [foulsAux, hl, List.range_eq_range', List.range']
  | succ m =>
      rw [foulsAux, if_neg h1, if_neg h2, foulsAux_ok tbl m 1 _ _ (by omega)]
      rw [List.range_eq_range', List.range'_succ]
      simp [List.filter_cons, foulEdgeL, foulEdgeR, h1, h2]

/-! ### Helper lemmas about define_player_possession -/

lemma dppAux_none (tbl : List Row) (c : ℕ) :
    ∀ fuel i rpos,
      (∀ j, i ≤ j → j < i + fuel →
        inZone tbl c (leftPt tbl c j) = false ∧
          inZone tbl c (rightPt tbl c j) = false) →
      dppAux tbl c rpos i fuel = (none, -1) := by
  intro fuel
  induction fuel with
  | zero => intro i rpos _; rfl
  | succ f ih =>
      intro i rpos h
      have hl := (h i (le_refl i) (by omega)).1
      have hr := (h i (le_refl i) (by omega)).2
      simp only [dppAux, hl, hr, Bool.false_and, Bool.false_eq_true, if_false]
      exact ih (i + 1) _ (fun j hj1 hj2 => h j (by omega) (by omega))

lemma dppAux_some_bounds (tbl : List Row) (c : ℕ) :
    ∀ fuel i rpos s n, dppAux tbl c rpos i fuel = (some s, n) →
      (s = "left" ∨ s = "right") ∧ (i : ℤ) + 2 ≤ n ∧ n ≤ (i : ℤ) + fuel + 1 := by
  intro fuel
  induction fuel with
  | zero => intro i rpos s n h; simp [dppAux] at h
  | succ f ih =>
      intro i rpos s n h
      rw [dppAux] at h
      cases hl : inZone tbl c (leftPt tbl c i) with
      | true =>
          cases hr : inZone tbl c rpos with
          | true => simp [hl, hr] at h
          | false =>
              simp only [hl, hr, Bool.and_false, Bool.false_eq_true, if_false,
                if_true, Prod.mk.injEq, Option.some.injEq] at h
              obtain ⟨hs, hn⟩ := h
              exact ⟨Or.inl hs.symm, by omega, by omega⟩
      | false =>
          cases hr : inZone tbl c (rightPt tbl c i) with
          | true =>
              simp only [hl, hr, Bool.false_and, Bool.false_eq_true, if_false,
                if_true, Prod.mk.injEq, Option.some.injEq] at h
              obtain ⟨hs, hn⟩ := h
              exact ⟨Or.inr hs.symm, by omega, by omega⟩
          | false =>
              simp only [hl, hr, Bool.false_and, Bool.false_eq_true, if_false] at h
              obtain ⟨h1, h2, h3⟩ := ih (i + 1) _ s n h
              exact ⟨h1, by push_cast at h2 ⊢; omega, by push_cast at h3 ⊢; omega⟩

lemma dppAux_ambiguous (tbl : List Row) (c : ℕ) (rpos : Point) (i fuel : ℕ)
    (hl : inZone tbl c (leftPt tbl c i) = true) (hr : inZone tbl c rpos = true) :
    dppAux tbl c rpos i (fuel + 1) = (none, -1) := by
  simp [dppAux, hl, hr]

/-! ### Helper lemmas about possession_at -/

lemma possStep_fst_cases (st : ℤ × String) (dl dr : ℤ) :
    (possStep st dl dr).1 = st.1 ∨ (possStep st dl dr).1 = dl ∨
      (possStep st dl dr).1 = dr := by
  unfold possStep
  by_cases h1 : dl < st.1 <;> by_cases h2 : dr < dl <;>
    by_cases h3 : dr < st.1 <;> simp [h1, h2, h3]

lemma possStep_eq_self (st : ℤ × String) (dl dr : ℤ)
    (h1 : ¬ dl < st.1) (h2 : ¬ dr < st.1) : possStep st dl dr = st := by
  simp [possStep, h1, h2]

lemma possStep_side_good (st : ℤ × String) (dl dr : ℤ)
    (h : st.2 = "left" ∨ st.2 = "right") :
    (possStep st dl dr).2 = "left" ∨ (possStep st dl dr).2 = "right" := by
  unfold possStep
  by_cases h1 : dl < st.1 <;> by_cases h2 : dr < dl <;>
    by_cases h3 : dr < st.1 <;> simp [h1, h2, h3, h]

lemma possStep_improve (st : ℤ × String) (dl dr : ℤ)
    (h : dl < st.1 ∨ dr < st.1) :
    (possStep st dl dr).2 = "left" ∨ (possStep st dl dr).2 = "right" := by
  unfold possStep
  by_cases h1 : dl < st.1 <;> by_cases h2 : dr < dl <;>
    by_cases h3 : dr < st.1 <;> simp [h1, h2, h3] <;> tauto

lemma possAux_side_good (tbl : List Row) (c : ℕ) :
    ∀ fuel i st, (st.2 = "left" ∨ st.2 = "right") →
      ((possAux tbl c i fuel st).2 = "left" ∨
        (possAux tbl c i fuel st).2 = "right") := by
  intro fuel
  induction fuel with
  | zero => intro i st h; exact h
  | succ f ih =>
      intro i st h
      rw [possAux]
      exact ih (i + 1) _ (possStep_side_good st _ _ h)

lemma possAux_keep (tbl : List Row) (c : ℕ) :
    ∀ fuel i st,
      (∀ j, i ≤ j → j < i + fuel →
        ¬ dL tbl c j < st.1 ∧ ¬ dR tbl c j < st.1) →
      possAux tbl c i fuel st = st := by
  intro fuel
  induction fuel with
  | zero => intro i st _; rfl
  | succ f ih =>
      intro i st h
      rw [possAux,
        possStep_eq_self st _ _ (h i (le_refl i) (by omega)).1
          (h i (le_refl i) (by omega)).2]
      exact ih (i + 1) st (fun j hj1 hj2 => h j (by omega) (by omega))

lemma possAux_improve (tbl : List Row) (c : ℕ) :
    ∀ fuel i st,
      (∃ j, i ≤ j ∧ j < i + fuel ∧ (dL tbl c j < st.1 ∨ dR tbl c j < st.1)) →
      ((possAux tbl c i fuel st).2 = "left" ∨
        (possAux tbl c i fuel st).2 = "right") := by
  intro fuel
  induction fuel with
  | zero => intro i st ⟨j, h1, h2, h3⟩; omega
  | succ f ih =>
      intro i st ⟨j, h1, h2, h3⟩
      rw [possAux]
      by_cases hcur : dL tbl c i < st.1 ∨ dR tbl c i < st.1
      · exact possAux_side_good tbl c f (i + 1) _ (possStep_improve st _ _ hcur)
      · push_neg at hcur
        rw [possStep_eq_self st _ _ (by omega) (by omega)]
        refine ih (i + 1) st ⟨j, ?_, by omega, h3⟩
        rcases Nat.eq_or_lt_of_le h1 with rfl | hlt
        · exact absurd h3 (by omega)
        · omega

lemma possAux_min_left (tbl : List Row) (c i0 : ℕ) :
    ∀ fuel i st, i ≤ i0 → i0 < i + fuel → dL tbl c i0 < st.1 →
      (∀ j, i ≤ j → j < i + fuel → j ≠ i0 → dL tbl c i0 < dL tbl c j) →
      (∀ j, i ≤ j → j < i + fuel → dL tbl c i0 < dR tbl c j) →
      possAux tbl c i fuel st = (dL tbl c i0, "left") := by
  intro fuel
  induction fuel with
  | zero => intro i st h1 h2; omega
  | succ f ih =>
      intro i st h1 h2 h3 h4 h5
      by_cases hi : i = i0
      · subst hi
        have hstep : possStep st (dL tbl c i) (dR tbl c i) = (dL tbl c i, "left") := by
          unfold possStep
          rw [if_pos h3, if_neg (by
            simpa using not_lt.mpr (le_of_lt (h5 i (le_refl i) (by omega))))]
        rw [possAux, hstep]
        refine possAux_keep tbl c f (i + 1) _ (fun j hj1 hj2 => ?_)
        exact ⟨by simpa using not_lt.mpr (le_of_lt (h4 j (by omega) (by omega) (by omega))),
          by simpa using not_lt.mpr (le_of_lt (h5 j (by omega) (by omega)))⟩
      · rw [possAux]
        have hfst : dL tbl c i0 < (possStep st (dL tbl c i) (dR tbl c i)).1 := by
          rcases possStep_fst_cases st (dL tbl c i) (dR tbl c i) with h | h | h <;> rw [h]
          · exact h3
          · exact h4 i (le_refl i) (by omega) hi
          · exact h5 i (le_refl i) (by omega)
        exact ih (i + 1) _ (by omega) (by omega) hfst
          (fun j hj1 hj2 hj3 => h4 j (by omega) (by omega) hj3)
          (fun j hj1 hj2 => h5 j (by omega) (by omega))

lemma possAux_min_right (tbl : List Row) (c i0 : ℕ) :
    ∀ fuel i st, i ≤ i0 → i0 < i + fuel → dR tbl c i0 < st.1 →
      (∀ j, i ≤ j → j < i + fuel → dR tbl c i0 < dL tbl c j) →
      (∀ j, i ≤ j → j < i + fuel → j ≠ i0 → dR tbl c i0 < dR tbl c j) →
      possAux tbl c i fuel st = (dR tbl c i0, "right") := by
  intro fuel
  induction fuel with
  | zero => intro i st h1 h2; omega
  | succ f ih =>
      intro i st h1 h2 h3 h4 h5
      by_cases hi : i = i0
      · subst hi
        have hstep : possStep st (dL tbl c i) (dR tbl c i) = (dR tbl c i, "right") := by
          unfold possStep
          by_cases hdl : dL tbl c i < st.1
          · rw [if_pos hdl, if_pos (by simpa using h4 i (le_refl i) (by omega))]
          · rw [if_neg hdl, if_pos (by simpa using h3)]
        rw [possAux, hstep]
        refine possAux_keep tbl c f (i + 1) _ (fun j hj1 hj2 => ?_)
        exact ⟨by simpa using not_lt.mpr (le_of_lt (h4 j (by omega) (by omega))),
          by simpa using not_lt.mpr (le_of_lt (h5 j (by omega) (by omega) (by omega)))⟩
      · rw [possAux]
        have hfst : dR tbl c i0 < (possStep st (dL tbl c i) (dR tbl c i)).1 := by
          rcases possStep_fst_cases st (dL tbl c i) (dR tbl c i) with h | h | h <;> rw [h]
          · exact h3
          · exact h4 i (le_refl i) (by omega)
          · exact h5 i (le_refl i) (by omega) hi
        exact ih (i + 1) _ (by omega) (by omega) hfst
          (fun j hj1 hj2 => h4 j (by omega) (by omega))
          (fun j hj1 hj2 hj3 => h5 j (by omega) (by omega) hj3)

/-! ### Helper lemmas about analyse_passes -/

lemma stateAfter_succ (tbl : List Row) (n : ℕ) :
    stateAfter tbl (n + 1) = passStep tbl n (stateAfter tbl n) := by
  unfold stateAfter
  rw [List.range_succ, List.foldl_append]
  rfl

lemma lookahead5Aux_iff (tbl : List Row) (modes : List String) :
    ∀ fuel j, lookahead5Aux tbl modes j fuel = true ↔
      ∃ l, l < fuel ∧ ∃ r, tbl[j + l]? = some r ∧ r.playmode ∈ modes := by
  intro fuel
  induction fuel with
  | zero => intro j; simp [lookahead5Aux]
  | succ f ih =>
      intro j
      rw [lookahead5Aux]
      cases hj : tbl[j]? with
      | none =>
          have hlen : tbl.length ≤ j := List.getElem?_eq_none_iff.mp hj
          simp only [Bool.false_eq_true, false_iff]
          rintro ⟨l, hl, r, hr, hm⟩
          rw [List.getElem?_eq_none (by omega : tbl.length ≤ j + l)] at hr
          exact Option.noConfusion hr
      | some r =>
          simp only []
          by_cases hm : r.playmode ∈ modes
          · simp only [hm, if_true, true_iff]
            exact ⟨0, by omega, r, by simpa using hj, hm⟩
          · rw [if_neg hm, ih (j + 1)]
            constructor
            · rintro ⟨l, hl, r2, hr2, hm2⟩
              exact ⟨l + 1, by omega, r2,
                by rw [show j + (l + 1) = j + 1 + l by omega]; exact hr2, hm2⟩
            · rintro ⟨l, hl, r2, hr2, hm2⟩
              match l with
              | 0 =>
                  rw [Nat.add_zero, hj] at hr2
                  cases hr2
                  exact absurd hm2 hm
              | l2 + 1 =>
                  exact ⟨l2, by omega, r2,
                    by rw [show j + 1 + l2 = j + (l2 + 1) by omega]; exact hr2, hm2⟩

/-- Componentwise order on the six pass counters. -/
def counters_le (s t : PassState) : Prop :=
  s.correct_l ≤ t.correct_l ∧ s.wrong_l ≤ t.wrong_l ∧
    s.intercepted_l ≤ t.intercepted_l ∧ s.correct_r ≤ t.correct_r ∧
    s.wrong_r ≤ t.wrong_r ∧ s.intercepted_r ≤ t.intercepted_r

lemma counters_le_refl (s : PassState) : counters_le s s := by
  unfold counters_le
  omega

lemma counters_le_trans {s t u : PassState} (h1 : counters_le s t)
    (h2 : counters_le t u) : counters_le s u := by
  unfold counters_le at h1 h2 ⊢
  omega

lemma rightBlock_counters (tbl : List Row) (i : ℕ) (s : PassState) :
    counters_le s (rightBlock tbl i s).1 := by
  unfold rightBlock counters_le
  cases hp : s.pass_r <;> simp
  split_ifs <;> simp

lemma leftBlock_counters (tbl : List Row) (i : ℕ) (s : PassState) :
    counters_le s (leftBlock tbl i s) := by
  unfold leftBlock counters_le
  cases hp : s.pass_l <;> simp
  split_ifs <;> simp

lemma passStep_counters (tbl : List Row) (i : ℕ) (s : PassState) :
    counters_le s (passStep tbl i s) := by
  unfold passStep
  cases hc : (rightBlock tbl i s).2 <;> simp [hc]
  · exact counters_le_trans (rightBlock_counters tbl i s)
      (leftBlock_counters tbl i _)
  · exact rightBlock_counters tbl i s

lemma rightBlock_snd_true_iff (tbl : List Row) (i : ℕ) (s : PassState) :
    (rightBlock tbl i s).2 = true ↔
      (s.pass_r = true ∧ pmAt tbl i = "kick_in_l") := by
  unfold rightBlock
  cases hp : s.pass_r <;> simp
  split_ifs with h <;> simp [h]

lemma rightBlock_clears_left (tbl : List Row) (i : ℕ) (s : PassState)
    (hp : s.pass_r = true) : ((rightBlock tbl i s).1).pass_l = false := by
  unfold rightBlock
  rw [hp]
  simp only [Bool.not_true, Bool.false_eq_true, if_false]
  split_ifs <;> simp

lemma leftBlock_clears_right (tbl : List Row) (i : ℕ) (s : PassState)
    (hp : s.pass_l = true) : (leftBlock tbl i s).pass_r = false := by
  unfold leftBlock
  rw [hp]
  simp only [Bool.not_true, Bool.false_eq_true, if_false]
  split_ifs <;> simp

lemma leftBlock_not_in_flight (tbl : List Row) (i : ℕ) (s : PassState)
    (hp : s.pass_l = false) :
    leftBlock tbl i s =
      { s with pass_l := (kick tbl i "l").1, pwk := (kick tbl i "l").2 } := by
  unfold leftBlock
  rw [hp]
  simp

lemma rightBlock_intercept (tbl : List Row) (i : ℕ) (s : PassState)
    (hp : s.pass_r = true) (hpm : pmAt tbl i ≠ "kick_in_l")
    (hposs : (define_player_possession tbl i).1 = some "left") :
    (rightBlock tbl i s).1.intercepted_l =
      s.intercepted_l + 1 -
        (if lookahead5 tbl i ["kick_off_l", "foul_charge_l"] then 1 else 0) ∧
    (rightBlock tbl i s).2 = false := by
  unfold rightBlock
  rw [hp]
  simp only [Bool.not_true, Bool.false_eq_true, if_false]
  rw [if_neg hpm, hposs]
  simp

lemma rightBlock_not_in_flight (tbl : List Row) (i : ℕ) (s : PassState)
    (hp : s.pass_r = false) :
    rightBlock tbl i s =
      ({ s with pass_r := (kick tbl i "r").1, pwk := (kick tbl i "r").2 },
        false) := by
  unfold rightBlock
  rw [hp]
  simp

lemma leftBlock_intercept (tbl : List Row) (i : ℕ) (s : PassState)
    (hp : s.pass_l = true) (hpm : pmAt tbl i ≠ "kick_in_r")
    (hposs : (define_player_possession tbl i).1 = some "right") :
    (leftBlock tbl i s).intercepted_r =
      s.intercepted_r + 1 -
        (if lookahead5 tbl i ["kick_off_r", "foul_charge_r"] then 1 else 0) := by
  unfold leftBlock
  rw [hp]
  simp only [Bool.not_true, Bool.false_eq_true, if_false]
  rw [if_neg hpm, hposs]
  simp

/-! ### Concrete tables used by counterexamples and witnesses -/

/-- Row with every player far from the ball (which sits at the origin), all
counters zero, play-mode `play_on`. -/
def farRow : Row :=
  { lx := fun _ => 2000, ly := fun _ => 2000,
    rx := fun _ => -2000, ry := fun _ => -2000 }

/-- Table whose 22 players all sit exactly at distance 1000 from the ball. -/
def tblSentinel : List Row :=
  [{ lx := fun _ => 10000, ly := fun _ => 0,
     rx := fun _ => 10000, ry := fun _ => 0 }]

/-- Table with only the left player of list index 10 (shirt 11) inside the
influence zone of the ball at (10, 10). -/
def tblIdx10 : List Row :=
  [{ ball_x := 100, ball_y := 100,
     lx := fun i => if i = 10 then 100 else 2000,
     ly := fun i => if i = 10 then 100 else 2000,
     rx := fun _ => -2000, ry := fun _ => -2000 }]

/-- Table where both the left and the right player of list index 1 (shirt 2)
are inside the influence zone of the ball at (10, 10), the origin being far
from the ball. -/
def tblBothIn : List Row :=
  [{ ball_x := 100, ball_y := 100,
     lx := fun i => if i = 1 then 100 else 2000,
     ly := fun i => if i = 1 then 100 else 2000,
     rx := fun i => if i = 1 then 100 else -2000,
     ry := fun i => if i = 1 then 101 else -2000 }]

/-- Table with the ball and the left player of list index 1 both at the
origin, every other player far away. -/
def tblOrigin : List Row :=
  [{ lx := fun i => if i = 1 then 0 else 2000,
     ly := fun i => if i = 1 then 0 else 2000,
     rx := fun _ => -2000, ry := fun _ => -2000 }]

/-- Table with every player away from the ball zone. -/
def tblNobody : List Row :=
  [farRow]

/-- Three-cycle table: both sides kick at cycle 1 (right shirt 1, left shirt
5); at cycle 2 the right player of list index 6 (shirt 7) is on the ball, so
possession resolves to `(right, 8)` while both passes are in flight. -/
def tblCross : List Row :=
  [farRow,
   { farRow with kickR := fun p => if p = 1 then 1 else 0,
                 kickL := fun p => if p = 5 then 1 else 0 },
   { farRow with kickR := fun p => if p = 1 then 1 else 0,
                 kickL := fun p => if p = 5 then 1 else 0,
                 rx := fun i => if i = 6 then 0 else -2000,
                 ry := fun i => if i = 6 then 0 else -2000 }]

/-- Eight-cycle table: right shirt 1 kicks at cycle 1; at cycle 2 the left
player of list index 2 (shirt 3) is on the ball and the play-mode of cycle 2
itself is `kick_off_l`; every later cycle is `play_on`. -/
def tblLookNow : List Row :=
  [farRow,
   { farRow with kickR := fun p => if p = 1 then 1 else 0 },
   { farRow with kickR := fun p => if p = 1 then 1 else 0,
                 playmode := "kick_off_l",
                 lx := fun i => if i = 2 then 0 else 2000,
                 ly := fun i => if i = 2 then 0 else 2000 },
   { farRow with kickR := fun p => if p = 1 then 1 else 0 },
   { farRow with kickR := fun p => if p = 1 then 1 else 0 },
   { farRow with kickR := fun p => if p = 1 then 1 else 0 },
   { farRow with kickR := fun p => if p = 1 then 1 else 0 },
   { farRow with kickR := fun p => if p = 1 then 1 else 0 }]

/-- Mirror of `tblLookNow` for the left-side machine: left shirt 1 kicks at
cycle 1 (no right pass in flight); at cycle 2 the right player of list index
2 (shirt 3) is on the ball and the play-mode of cycle 2 itself is
`kick_off_r`; every later cycle is `play_on`. -/
def tblLookLeft : List Row :=
  [farRow,
   { farRow with kickL := fun p => if p = 1 then 1 else 0 },
   { farRow with kickL := fun p => if p = 1 then 1 else 0,
                 playmode := "kick_off_r",
                 rx := fun i => if i = 2 then 0 else -2000,
                 ry := fun i => if i = 2 then 0 else -2000 },
   { farRow with kickL := fun p => if p = 1 then 1 else 0 },
   { farRow with kickL := fun p => if p = 1 then 1 else 0 },
   { farRow with kickL := fun p => if p = 1 then 1 else 0 },
   { farRow with kickL := fun p => if p = 1 then 1 else 0 },
   { farRow with kickL := fun p => if p = 1 then 1 else 0 }]

/-- One-row table with recorded team names. -/
def tblNames : List Row :=
  [{ farRow with team_name_l := "HELIOS", team_name_r := "CYRUS" }]

/-- Two-cycle table whose play-mode is `goal_l` throughout. -/
def tblAllGoal : List Row :=
  [{ farRow with playmode := "goal_l" },
   { farRow with playmode := "goal_l" }]

/-- One-row table whose play-mode is `foul_charge_l`. -/
def tblFoul0 : List Row :=
  [{ farRow with playmode := "foul_charge_l" }]

/-- Seven-cycle table with a two-cycle `goal_l` run starting at cycle 1 and a
two-cycle `foul_charge_l` run starting at cycle 4. -/
def tblRuns : List Row :=
  [farRow,
   { farRow with playmode := "goal_l" },
   { farRow with playmode := "goal_l" },
   farRow,
   { farRow with playmode := "foul_charge_l", ball_x := 35, ball_y := -35 },
   { farRow with playmode := "foul_charge_l", ball_x := 40, ball_y := 40 },
   farRow]

/-- Three-cycle table with `goal_l` at cycle 0 and `goal_r` at cycle 2. -/
def tblGoalWrap : List Row :=
  [{ farRow with playmode := "goal_l" },
   farRow,
   { farRow with playmode := "goal_r" }]

/-- Two-cycle table where the left shirt 3 kick counter increases at cycle 1. -/
def tblKick3 : List Row :=
  [farRow,
   { farRow with kickL := fun p => if p = 3 then 1 else 0 }]

/-- One-row table with a unique closest player: left list index 0 at squared
distance 1, all other left players at squared distance larger, all right
players farther still. -/
def tblClosest : List Row :=
  [{ lx := fun i => if i = 0 then 10 else 30, ly := fun _ => 0,
     rx := fun _ => 50, ry := fun _ => 0 }]

/-! ### Claim C3 -/

/-- Claim C3, counterexample: with only the left player of list index 10
(shirt number 11) inside the influence zone, `define_player_possession`
returns player number 12, outside the range 2..11 stated by the claim. -/
theorem claim_C3_counterexample :
    define_player_possession tblIdx10 0 = (some "left", 12) ∧
    ¬ ((12 : ℤ) ≤ 11) := by decide

/-- Claim C3 (amended): if no checked player (list indices 1-10, shirt
numbers 2-11) lies inside the 0.7 influence zone of the ball, the function
returns `(none, -1)`; whenever it returns a side, the side is left or right
and the accompanying number is the list index plus 2, hence in 3..12 (one
more than the shirt number); in particular the goalkeeper number 1 is never
returned. -/
theorem claim_C3_amended (tbl : List Row) (c : ℕ) :
    ((∀ i, i < 11 → 1 ≤ i →
        inZone tbl c (leftPt tbl c i) = false ∧
          inZone tbl c (rightPt tbl c i) = false) →
      define_player_possession tbl c = (none, -1)) ∧
    (∀ s n, define_player_possession tbl c = (some s, n) →
      (s = "left" ∨ s = "right") ∧ 3 ≤ n ∧ n ≤ 12) := by
  constructor
  · intro h
    exact dppAux_none tbl c 10 1 {} (fun j hj1 hj2 => h j (by omega) hj1)
  · intro s n h
    obtain ⟨h1, h2, h3⟩ := dppAux_some_bounds tbl c 10 1 {} s n h
    refine ⟨h1, by push_cast at h2 ⊢; omega, by push_cast at h3 ⊢; omega⟩

/-- Witness for claim C3: both conjuncts applied at concrete tables. -/
theorem claim_C3_witness :
    define_player_possession tblNobody 0 = (none, -1) ∧
    (("left" : String) = "left" ∨ ("left" : String) = "right") ∧
      (3 : ℤ) ≤ 12 ∧ (12 : ℤ) ≤ 12 :=
  ⟨(claim_C3_amended tblNobody 0).1 (by decide),
   (claim_C3_amended tblIdx10 0).2 "left" 12 (by decide)⟩

/-! ### Claim C4 -/

/-- Claim C4, counterexample: at step 1 both the left and the right player of
that step are inside the influence zone, yet possession goes to the left
player instead of the neutral `(none, -1)` the claim requires — the
ambiguity test compares against the right position of the previous step, not
of the current one. -/
theorem claim_C4_counterexample :
    inZone tblBothIn 0 (leftPt tblBothIn 0 1) = true ∧
    inZone tblBothIn 0 (rightPt tblBothIn 0 1) = true ∧
    define_player_possession tblBothIn 0 = (some "left", 3) := by decide

/-- Claim C4 (amended): the immediate-neutral return fires when the left
player of the current step and the right-player position assigned at the
previous step (the origin `Point()` before any step) are both inside the
zone; in particular with both the left player of list index 1 and the origin
inside, the whole function returns `(none, -1)`. -/
theorem claim_C4_amended (tbl : List Row) (c : ℕ) :
    (∀ rpos i fuel, inZone tbl c (leftPt tbl c i) = true →
      inZone tbl c rpos = true →
      dppAux tbl c rpos i (fuel + 1) = (none, -1)) ∧
    (inZone tbl c (leftPt tbl c 1) = true → inZone tbl c {} = true →
      define_player_possession tbl c = (none, -1)) := by
  refine ⟨fun rpos i fuel hl hr => dppAux_ambiguous tbl c rpos i fuel hl hr,
    fun hl hr => ?_⟩
  unfold define_player_possession
  exact dppAux_ambiguous tbl c {} 1 9 hl hr

/-- Witness for claim C4: ball and left shirt 2 at the origin. -/
theorem claim_C4_witness :
    define_player_possession tblOrigin 0 = (none, -1) :=
  (claim_C4_amended tblOrigin 0).2 (by decide) (by decide)

/-! ### Claim C5 -/

/-- Claim C5, counterexample: with every player at distance exactly 1000
(the sentinel) from the ball, `possession_at` returns the empty string —
neither left nor right — and the first examined player does not take initial
possession. -/
theorem claim_C5_counterexample :
    possession_at tblSentinel 0 = "" ∧
    dL tblSentinel 0 0 = 100000000 := by decide

/-- Claim C5 (amended): provided some examined player is strictly closer
than the sentinel distance 1000, `possession_at` returns left or right; a
player strictly closer than the sentinel and strictly closer than every
other player wins possession for its side. -/
theorem claim_C5_amended (tbl : List Row) (c : ℕ) :
    ((∃ j, j < 11 ∧ (dL tbl c j < 100000000 ∨ dR tbl c j < 100000000)) →
      possession_at tbl c = "left" ∨ possession_at tbl c = "right") ∧
    (∀ i0, i0 < 11 → dL tbl c i0 < 100000000 →
      (∀ j, j < 11 →
        (j ≠ i0 → dL tbl c i0 < dL tbl c j) ∧ dL tbl c i0 < dR tbl c j) →
      possession_at tbl c = "left") ∧
    (∀ i0, i0 < 11 → dR tbl c i0 < 100000000 →
      (∀ j, j < 11 →
        dR tbl c i0 < dL tbl c j ∧ (j ≠ i0 → dR tbl c i0 < dR tbl c j)) →
      possession_at tbl c = "right") := by
  refine ⟨?_, ?_, ?_⟩
  · rintro ⟨j, hj, hd⟩
    unfold possession_at
    exact possAux_improve tbl c 11 0 (100000000, "") ⟨j, by omega, by omega, hd⟩
  · intro i0 h1 h2 h3
    unfold possession_at
    rw [possAux_min_left tbl c i0 11 0 _ (by omega) (by omega) h2
      (fun j hj1 hj2 hj3 => (h3 j (by omega)).1 hj3)
      (fun j hj1 hj2 => (h3 j (by omega)).2)]
  · intro i0 h1 h2 h3
    unfold possession_at
    rw [possAux_min_right tbl c i0 11 0 _ (by omega) (by omega) h2
      (fun j hj1 hj2 => (h3 j (by omega)).1)
      (fun j hj1 hj2 hj3 => (h3 j (by omega)).2 hj3)]

/-- Witness for claim C5: unique closest player is the left list index 0. -/
theorem claim_C5_witness : possession_at tblClosest 0 = "left" :=
  (claim_C5_amended tblClosest 0).2.1 0 (by decide) (by decide) (by decide)

/-! ### Claim C8 -/

/-- Claim C8 (confirmed): at cycle 0 `kick` reports `(false, -1)`; at a
cycle `c > 0` it reports `(true, p)` for the first shirt number `p` in
1..11 whose kick counter strictly increased versus cycle `c - 1`, and
`(false, -1)` when no counter increased. -/
theorem claim_C8 (tbl : List Row) (team : String) :
    kick tbl 0 team = (false, -1) ∧
    (∀ c, 0 < c →
      ((∀ p, p < 12 → 1 ≤ p → ¬ kickIncr tbl c team p) →
        kick tbl c team = (false, -1)) ∧
      (∀ p, p < 12 → 1 ≤ p → kickIncr tbl c team p →
        (∀ q, q < p → 1 ≤ q → ¬ kickIncr tbl c team q) →
        kick tbl c team = (true, (p : ℤ)))) := by
  constructor
  · exact kickAux_eq_false tbl 0 team 11 1 (fun q hq1 hq2 hq => hq.1 rfl)
  · intro c hc
    constructor
    · intro h
      exact kickAux_eq_false tbl c team 11 1
        (fun q hq1 hq2 hq => h q (by omega) hq1 hq.2)
    · intro p h1 h2 hp hmin
      exact kickAux_eq_true tbl c team 11 1 p h2 (by omega) ⟨by omega, hp⟩
        (fun q hq1 hq2 hq => hmin q (by omega) hq1 hq.2)

/-- Witness for claim C8: left shirt 3 kicks between cycles 0 and 1. -/
theorem claim_C8_witness :
    kick tblKick3 0 "l" = (false, -1) ∧ kick tblKick3 1 "l" = (true, 3) :=
  ⟨(claim_C8 tblKick3 "l").1,
   ((claim_C8 tblKick3 "l").2 1 (by decide)).2 3 (by decide) (by decide)
     (by decide) (by decide)⟩

/-! ### Claim C10 -/

/-- Claim C10 (confirmed): in `goals` the comparison for cycle 0 wraps
around to the last row, so a goal play-mode at cycle 0 is reported iff the
final play-mode differs from it, while every cycle `i > 0` is compared with
cycle `i - 1`. -/
theorem claim_C10 (tbl : List Row) (h : 0 < tbl.length) :
    (0 ∈ goals tbl none ↔
      ((pmAt tbl 0 = "goal_l" ∨ pmAt tbl 0 = "goal_r") ∧
        pmAt tbl (tbl.length - 1) ≠ pmAt tbl 0)) ∧
    (∀ i, 0 < i → i < tbl.length →
      (i ∈ goals tbl none ↔
        ((pmAt tbl i = "goal_l" ∨ pmAt tbl i = "goal_r") ∧
          pmAt tbl (i - 1) ≠ pmAt tbl i))) := by
  constructor
  · rw [goals_none_mem]
    simp only [pmPrevWrap, if_pos rfl]
    exact ⟨fun ⟨_, a, b⟩ => ⟨a, b⟩, fun ⟨a, b⟩ => ⟨h, a, b⟩⟩
  · intro i hi hlen
    rw [goals_none_mem]
    simp only [pmPrevWrap, if_neg (by omega : ¬ i = 0)]
    exact ⟨fun ⟨_, a, b⟩ => ⟨a, b⟩, fun ⟨a, b⟩ => ⟨hlen, a, b⟩⟩

/-- Witness for claim C10: a `goal_l` at cycle 0 is reported because the
last row differs, and the `goal_r` at cycle 2 is reported against cycle 1. -/
theorem claim_C10_witness :
    (0 ∈ goals tblGoalWrap none) ∧ (2 ∈ goals tblGoalWrap none) :=
  ⟨(claim_C10 tblGoalWrap (by decide)).1.mpr (by decide),
   ((claim_C10 tblGoalWrap (by decide)).2 2 (by decide) (by decide)).mpr
     (by decide)⟩

/-! ### Claim C1 -/

/-- Claim C1, counterexample: in `tblCross` both passes are in flight after
cycle 1; at cycle 2 (play-mode `play_on`, possession resolving to the right
side) the right-side block closes its pass with a correct-pass transition
and clears the left in-flight flag on the way, so the left machine — which
per the claim should have been evaluated in flight and scored an
interception for the right side — sees no in-flight pass:
`intercepted_r` stays 0. -/
theorem claim_C1_counterexample :
    (stateAfter tblCross 2).pass_l = true ∧
    (stateAfter tblCross 2).pass_r = true ∧
    pmAt tblCross 2 = "play_on" ∧
    define_player_possession tblCross 2 = (some "right", 8) ∧
    ((rightBlock tblCross 2 (stateAfter tblCross 2)).1).pass_l = false ∧
    (stateAfter tblCross 3).correct_r = 1 ∧
    (stateAfter tblCross 3).intercepted_r = 0 := by decide

/-- Claim C1 (amended): whenever a side's machine is in flight, its block
unconditionally clears the other side's in-flight flag before anything
else; and the cycle evaluates both blocks except when the right block
closes with a wrong pass on `kick_in_l`, whose `continue` skips the left
block for that cycle. -/
theorem claim_C1_amended (tbl : List Row) (i : ℕ) (s : PassState) :
    (s.pass_r = true → ((rightBlock tbl i s).1).pass_l = false) ∧
    (s.pass_l = true → (leftBlock tbl i s).pass_r = false) ∧
    (s.pass_r = true → pmAt tbl i = "kick_in_l" →
      passStep tbl i s = (rightBlock tbl i s).1 ∧
      ((rightBlock tbl i s).1).wrong_r = s.wrong_r + 1) ∧
    ((s.pass_r = false ∨ pmAt tbl i ≠ "kick_in_l") →
      passStep tbl i s = leftBlock tbl i (rightBlock tbl i s).1) := by
  refine ⟨rightBlock_clears_left tbl i s, leftBlock_clears_right tbl i s,
    ?_, ?_⟩
  · intro hp hpm
    have hsnd : (rightBlock tbl i s).2 = true :=
      (rightBlock_snd_true_iff tbl i s).mpr ⟨hp, hpm⟩
    constructor
    · unfold passStep
      rw [hsnd]
      simp
    · unfold rightBlock
      rw [hp]
      simp only [Bool.not_true, Bool.false_eq_true, if_false]
      rw [if_pos hpm]
  · intro h
    have hsnd : (rightBlock tbl i s).2 = false := by
      cases hx : (rightBlock tbl i s).2
      · rfl
      · obtain ⟨hp2, hpm2⟩ := (rightBlock_snd_true_iff tbl i s).mp hx
        rcases h with h | h
        · rw [h] at hp2
          exact Bool.noConfusion hp2
        · exact absurd hpm2 h
    unfold passStep
    rw [hsnd]
    simp

/-- Witness for claim C1 at the concrete coupled-machines table. -/
theorem claim_C1_witness :
    passStep tblCross 2 (stateAfter tblCross 2) =
      leftBlock tblCross 2 (rightBlock tblCross 2 (stateAfter tblCross 2)).1 ∧
    ((rightBlock tblCross 2 (stateAfter tblCross 2)).1).pass_l = false :=
  ⟨(claim_C1_amended tblCross 2 (stateAfter tblCross 2)).2.2.2
     (Or.inr (by decide)),
   (claim_C1_amended tblCross 2 (stateAfter tblCross 2)).1 (by decide)⟩

/-! ### Claim C2 -/

/-- Claim C2, counterexample: in `tblLookNow` the right pass is intercepted
by the left side at cycle 2; none of the next five cycles (3..7) carries
the left kick-off or foul-charge play-mode, so by the claim the interception
should stand (`intercepted_l = 1`); the code nevertheless retracts it,
because its lookahead starts at the interception cycle itself (offsets
0..4) and cycle 2 carries `kick_off_l`. -/
theorem claim_C2_counterexample :
    (stateAfter tblLookNow 2).pass_r = true ∧
    pmAt tblLookNow 2 = "kick_off_l" ∧
    define_player_possession tblLookNow 2 = (some "left", 4) ∧
    (∀ l, l < 6 → 1 ≤ l →
      pmAt tblLookNow (2 + l) ≠ "kick_off_l" ∧
        pmAt tblLookNow (2 + l) ≠ "foul_charge_l") ∧
    (stateAfter tblLookNow 3).intercepted_l = 0 ∧
    (stateAfter tblLookNow 8).intercepted_l = 0 := by decide

/-- Claim C2 (amended): on an in-flight right pass with possession
resolving to the left side (and no `kick_in_l`), the left intercepted
counter is incremented and then decremented again exactly when the
lookahead over offsets 0..4 from the current cycle — not the next five
cycles — meets `kick_off_l` or `foul_charge_l`; mirrored for an in-flight
left pass with possession resolving right (`intercepted_r` with
`kick_off_r` / `foul_charge_r`), which however requires that no right pass
is simultaneously in flight, because the right block would first clear the
left in-flight flag (the interference of claim C1); the lookahead stops
silently at the end of the table, finding a mode only at indices that
exist. -/
theorem claim_C2_amended (tbl : List Row) (i : ℕ) (s : PassState) :
    (s.pass_r = true → pmAt tbl i ≠ "kick_in_l" →
      (define_player_possession tbl i).1 = some "left" →
      (passStep tbl i s).intercepted_l =
        s.intercepted_l + 1 -
          (if lookahead5 tbl i ["kick_off_l", "foul_charge_l"]
           then 1 else 0)) ∧
    (s.pass_l = true → s.pass_r = false → pmAt tbl i ≠ "kick_in_r" →
      (define_player_possession tbl i).1 = some "right" →
      (passStep tbl i s).intercepted_r =
        s.intercepted_r + 1 -
          (if lookahead5 tbl i ["kick_off_r", "foul_charge_r"]
           then 1 else 0)) ∧
    (∀ modes j, lookahead5 tbl j modes = true ↔
      ∃ l, l < 5 ∧ ∃ r, tbl[j + l]? = some r ∧ r.playmode ∈ modes) := by
  refine ⟨?_, ?_, fun modes j => lookahead5Aux_iff tbl modes 5 j⟩
  · intro hp hpm hposs
    obtain ⟨hval, hsnd⟩ := rightBlock_intercept tbl i s hp hpm hposs
    unfold passStep
    rw [hsnd]
    simp only [Bool.false_eq_true, if_false]
    rw [leftBlock_not_in_flight tbl i _ (rightBlock_clears_left tbl i s hp)]
    simpa using hval
  · intro hpl hpr hpm hposs
    have hstep : passStep tbl i s =
        leftBlock tbl i
          { s with pass_r := (kick tbl i "r").1, pwk := (kick tbl i "r").2 } := by
      unfold passStep
      rw [rightBlock_not_in_flight tbl i s hpr]
      rfl
    rw [hstep, leftBlock_intercept tbl i
      { s with pass_r := (kick tbl i "r").1, pwk := (kick tbl i "r").2 }
      hpl hpm hposs]

/-- Witness for claim C2 at the concrete lookahead tables, one per side. -/
theorem claim_C2_witness :
    (passStep tblLookNow 2 (stateAfter tblLookNow 2)).intercepted_l =
      (stateAfter tblLookNow 2).intercepted_l + 1 -
        (if lookahead5 tblLookNow 2 ["kick_off_l", "foul_charge_l"]
         then 1 else 0) ∧
    (passStep tblLookLeft 2 (stateAfter tblLookLeft 2)).intercepted_r =
      (stateAfter tblLookLeft 2).intercepted_r + 1 -
        (if lookahead5 tblLookLeft 2 ["kick_off_r", "foul_charge_r"]
         then 1 else 0) :=
  ⟨(claim_C2_amended tblLookNow 2 (stateAfter tblLookNow 2)).1
     (by decide) (by decide) (by decide),
   (claim_C2_amended tblLookLeft 2 (stateAfter tblLookLeft 2)).2.1
     (by decide) (by decide) (by decide) (by decide)⟩

/-! ### Claim C6 -/

/-- Claim C6, counterexample: a `goal_l` run occupying the whole two-cycle
table yields no goal event at all (the wraparound comparison at cycle 0
sees `goal_l` in the last row), and a `foul_charge_l` run starting at cycle
0 makes `analyze_fouls_charge` raise a lookup error instead of recording an
event at cycle 0. -/
theorem claim_C6_counterexample :
    pmAt tblAllGoal 0 = "goal_l" ∧ pmAt tblAllGoal 1 = "goal_l" ∧
    goals tblAllGoal none = [] ∧
    pmAt tblFoul0 0 = "foul_charge_l" ∧
    analyze_fouls_charge tblFoul0 = .error "KeyError" := by decide

/-- Claim C6 (amended): a goal play-mode held for `N` consecutive cycles
starting at a cycle `i ≥ 1` (preceded by a different play-mode) yields
exactly one goal event, at cycle `i`; when the play-mode of cycle 0 is not
a foul label, `analyze_fouls_charge` returns exactly the edge-triggered
foul locations, and a `foul_charge_l` run starting at `i ≥ 1` edge-triggers
exactly at its first cycle.  Runs starting at cycle 0 behave differently
(wraparound for goals, a raised lookup error for fouls). -/
theorem claim_C6_amended :
    (∀ (tbl : List Row) (lbl : String) (i N : ℕ),
      (lbl = "goal_l" ∨ lbl = "goal_r") → 0 < i → 0 < N →
      i + N ≤ tbl.length →
      (∀ k, k < N → pmAt tbl (i + k) = lbl) → pmAt tbl (i - 1) ≠ lbl →
      (i ∈ goals tbl none ∧ ∀ k, 0 < k → k < N → i + k ∉ goals tbl none)) ∧
    (∀ tbl : List Row, pmAt tbl 0 ≠ "foul_charge_l" →
      pmAt tbl 0 ≠ "foul_charge_r" →
      analyze_fouls_charge tbl = .ok (foulsSpec tbl)) ∧
    (∀ (tbl : List Row) (i N : ℕ), 0 < i → 0 < N → i + N ≤ tbl.length →
      (∀ k, k < N → pmAt tbl (i + k) = "foul_charge_l") →
      pmAt tbl (i - 1) ≠ "foul_charge_l" →
      (foulEdgeL tbl i = true ∧
        ∀ k, 0 < k → k < N → foulEdgeL tbl (i + k) = false)) := by
  refine ⟨?_, fun tbl h1 h2 => analyze_fouls_charge_eq tbl h1 h2, ?_⟩
  · intro tbl lbl i N hlbl hi hN hlen hrun hprev
    have hpm : pmAt tbl i = lbl := by simpa using hrun 0 hN
    constructor
    · rw [goals_none_mem]
      refine ⟨by omega, ?_, ?_⟩
      · rw [hpm]
        exact hlbl
      · simp only [pmPrevWrap, if_neg (by omega : ¬ i = 0)]
        rw [hpm]
        exact hprev
    · intro k hk1 hk2
      rw [goals_none_mem]
      rintro ⟨-, -, hne⟩
      apply hne
      have e1 : pmAt tbl (i + k) = lbl := hrun k hk2
      have e2 : pmAt tbl (i + k - 1) = lbl := by
        have := hrun (k - 1) (by omega)
        rwa [show i + (k - 1) = i + k - 1 by omega] at this
      simp only [pmPrevWrap, if_neg (by omega : ¬ i + k = 0)]
      rw [e1, e2]
  · intro tbl i N hi hN hlen hrun hprev
    constructor
    · apply decide_eq_true
      exact ⟨by simpa using hrun 0 hN, hprev⟩
    · intro k hk1 hk2
      apply decide_eq_false
      rintro ⟨h1, h2⟩
      apply h2
      have := hrun (k - 1) (by omega)
      rwa [show i + (k - 1) = i + k - 1 by omega] at this

/-- Witness for claim C6 at the concrete run table: the two-cycle `goal_l`
run starting at cycle 1 gives one event at cycle 1, the foul scan returns
its edge-triggered locations, and the `foul_charge_l` run starting at
cycle 4 edge-triggers only there. -/
theorem claim_C6_witness :
    (1 ∈ goals tblRuns none ∧ 2 ∉ goals tblRuns none) ∧
    analyze_fouls_charge tblRuns = .ok (foulsSpec tblRuns) ∧
    (foulEdgeL tblRuns 4 = true ∧ foulEdgeL tblRuns 5 = false) := by
  refine ⟨?_, claim_C6_amended.2.1 tblRuns (by decide) (by decide), ?_⟩
  · have h := claim_C6_amended.1 tblRuns "goal_l" 1 2 (Or.inl rfl)
      (by decide) (by decide) (by decide) (by decide) (by decide)
    exact ⟨h.1, h.2 1 (by decide) (by decide)⟩
  · have h := claim_C6_amended.2.2 tblRuns 4 2 (by decide) (by decide)
      (by decide) (by decide) (by decide)
    exact ⟨h.1, h.2 1 (by decide) (by decide)⟩

/-! ### Claim C7 -/

/-- Nonnegativity of all six pass counters. -/
def countersNonneg (s : PassState) : Prop :=
  0 ≤ s.correct_l ∧ 0 ≤ s.wrong_l ∧ 0 ≤ s.intercepted_l ∧
    0 ≤ s.correct_r ∧ 0 ≤ s.wrong_r ∧ 0 ≤ s.intercepted_r

/-- Claim C7 (confirmed): at every point of the `analyse_passes` scan —
after any number of full cycles, and also mid-cycle right after the
right-side block, which is where a lookahead retraction has just been
applied — all six counters are nonnegative. -/
theorem claim_C7 (tbl : List Row) (n : ℕ) :
    countersNonneg (stateAfter tbl n) ∧
    countersNonneg (rightBlock tbl n (stateAfter tbl n)).1 := by
  have key : ∀ m, countersNonneg (stateAfter tbl m) := by
    intro m
    induction m with
    | zero => exact ⟨le_refl 0, le_refl 0, le_refl 0, le_refl 0, le_refl 0, le_refl 0⟩
    | succ m ih =>
        rw [stateAfter_succ]
        have h2 := passStep_counters tbl m (stateAfter tbl m)
        unfold countersNonneg at ih ⊢
        unfold counters_le at h2
        omega
  refine ⟨key n, ?_⟩
  have h2 := rightBlock_counters tbl n (stateAfter tbl n)
  have h1 := key n
  unfold countersNonneg at h1 ⊢
  unfold counters_le at h2
  omega

/-! ### Claim C9 -/

/-- Dispatch form of `analyse_passes` on a nonempty table. -/
lemma analyse_passes_cons (r0 : Row) (rest : List Row) (team : String) :
    analyse_passes (r0 :: rest) team =
      (if team = r0.team_name_l then
        .ok ((stateAfter (r0 :: rest) (r0 :: rest).length).correct_l,
          (stateAfter (r0 :: rest) (r0 :: rest).length).wrong_l,
          (stateAfter (r0 :: rest) (r0 :: rest).length).intercepted_l)
      else if team = r0.team_name_r then
        .ok ((stateAfter (r0 :: rest) (r0 :: rest).length).correct_r,
          (stateAfter (r0 :: rest) (r0 :: rest).length).wrong_r,
          (stateAfter (r0 :: rest) (r0 :: rest).length).intercepted_r)
      else .error "ValueError: Cannot find team name.") := rfl

/-- Claim C9, counterexample: for a team name matching neither recorded
team name, `analyze_goalkeeper` raises no error at all — it silently
analyses as if the unknown team were the right team (enemy side left). -/
theorem claim_C9_counterexample :
    ("nobody" ≠ (rowAt tblNames 0).team_name_l) ∧
    ("nobody" ≠ (rowAt tblNames 0).team_name_r) ∧
    analyze_goalkeeper tblNames "nobody" = .ok ⟨0, 1, [], [], []⟩ := by
  decide

/-- Claim C9 (amended): on a nonempty table, `analyse_passes` surfaces an
unknown-team `ValueError` to the caller, but `analyze_goalkeeper` succeeds
for every team name, treating any name other than the recorded left team
name as the right team. -/
theorem claim_C9_amended (tbl : List Row) (team : String) (r0 : Row)
    (h0 : tbl[0]? = some r0) (hl : team ≠ r0.team_name_l)
    (hr : team ≠ r0.team_name_r) :
    analyse_passes tbl team = .error "ValueError: Cannot find team name." ∧
    ∃ rep, analyze_goalkeeper tbl team = .ok rep := by
  cases tbl with
  | nil => rw [List.getElem?_nil] at h0; exact Option.noConfusion h0
  | cons r rest =>
      rw [List.getElem?_cons_zero] at h0
      obtain rfl : r = r0 := Option.some.inj h0
      refine ⟨?_, ⟨_, rfl⟩⟩
      rw [analyse_passes_cons, if_neg hl, if_neg hr]

/-- Witness for claim C9 at the concrete named table. -/
theorem claim_C9_witness :
    analyse_passes tblNames "nobody" =
      .error "ValueError: Cannot find team name." ∧
    ∃ rep, analyze_goalkeeper tblNames "nobody" = .ok rep :=
  claim_C9_amended tblNames "nobody" _ rfl (by decide) (by decide)

end Soccer
